import Mathlib

/-!
Verification of the chunked-upload service (`s3/app`): a shallow embedding of
`s3/app/services/s3.py` (AWS SigV4 signer and storage transfer client) and
`s3/app/routers/chunk_upload.py` / `s3/app/routers/file_upload.py` (upload
session handlers), with theorems settling the specification claims.

Bytes are modelled as natural numbers below 256 in lists (`Bytes`); machine
32-bit words are naturals reduced modulo `2 ^ 32` where overflow matters.
-/

/-- A byte string, as produced by Python `bytes`. -/
abbrev Bytes := List Nat

/-! ### SHA-256 (the `hashlib.sha256` primitive used by the source)

Faithful executable model of FIPS 180-4 SHA-256 over byte lists; the source
calls this through `hashlib.sha256(...).digest()` / `.hexdigest()`. -/

/-- Truncate to a 32-bit word. -/
def w32 (x : Nat) : Nat := x % 4294967296

/-- 32-bit right rotation. -/
def rotr32 (n x : Nat) : Nat := w32 ((x >>> n) ||| (x <<< (32 - n)))

/-- 32-bit bitwise complement. -/
def bnot32 (x : Nat) : Nat := x ^^^ 4294967295

/-- SHA-256 `Ch` function. -/
def shaCh (x y z : Nat) : Nat := (x &&& y) ^^^ (bnot32 x &&& z)

/-- SHA-256 `Maj` function. -/
def shaMaj (x y z : Nat) : Nat := (x &&& y) ^^^ (x &&& z) ^^^ (y &&& z)

/-- SHA-256 big sigma-0. -/
def bsig0 (x : Nat) : Nat := rotr32 2 x ^^^ rotr32 13 x ^^^ rotr32 22 x

/-- SHA-256 big sigma-1. -/
def bsig1 (x : Nat) : Nat := rotr32 6 x ^^^ rotr32 11 x ^^^ rotr32 25 x

/-- SHA-256 small sigma-0. -/
def ssig0 (x : Nat) : Nat := rotr32 7 x ^^^ rotr32 18 x ^^^ (x >>> 3)

/-- SHA-256 small sigma-1. -/
def ssig1 (x : Nat) : Nat := rotr32 17 x ^^^ rotr32 19 x ^^^ (x >>> 10)

/-- The 64 SHA-256 round constants (FIPS 180-4, in decimal). -/
def sha256K : List Nat :=
  [1116352408, 1899447441, 3049323471, 3921009573, 961987163,
   1508970993, 2453635748, 2870763221, 3624381080, 310598401,
   607225278, 1426881987, 1925078388, 2162078206, 2614888103,
   3248222580, 3835390401, 4022224774, 264347078, 604807628,
   770255983, 1249150122, 1555081692, 1996064986, 2554220882,
   2821834349, 2952996808, 3210313671, 3336571891, 3584528711,
   113926993, 338241895, 666307205, 773529912, 1294757372,
   1396182291, 1695183700, 1986661051, 2177026350, 2456956037,
   2730485921, 2820302411, 3259730800, 3345764771, 3516065817,
   3600352804, 4094571909, 275423344, 430227734, 506948616,
   659060556, 883997877, 958139571, 1322822218, 1537002063,
   1747873779, 1955562222, 2024104815, 2227730452, 2361852424,
   2428436474, 2756734187, 3204031479, 3329325298]

/-- The SHA-256 initial hash value (FIPS 180-4, in decimal). -/
def sha256H0 : List Nat :=
  [1779033703, 3144134277, 1013904242,
   2773480762, 1359893119, 2600822924,
   528734635, 1541459225]

/-- Big-endian byte encoding of `v` on `n` bytes. -/
def beBytes : Nat → Nat → Bytes
  | 0, _ => []
  | k + 1, v => ((v >>> (8 * k)) % 256) :: beBytes k v

/-- Big-endian 32-bit word from four bytes. -/
def beWord (bs : Bytes) : Nat := bs.foldl (fun a b => a * 256 + b) 0

/-- Split a byte list into chunks of `k + 1` bytes (the parameter is the
chunk size minus one so that termination is structural in the length). -/
def chunksOf (k : Nat) (l : Bytes) : List Bytes :=
  if h : l = [] then [] else l.take (k + 1) :: chunksOf k (l.drop (k + 1))
termination_by l.length
decreasing_by
  simp only [List.length_drop]
  have : 0 < l.length := List.length_pos.mpr h
  omega

/-- SHA-256 padding: append `0x80`, zeros to 56 mod 64, and the 64-bit
big-endian bit length. -/
def sha256Pad (msg : Bytes) : Bytes :=
  msg ++ [128] ++ List.replicate ((119 - msg.length % 64) % 64) 0 ++ beBytes 8 (msg.length * 8)

/-- One step of the SHA-256 message-schedule extension. -/
def scheduleStep (ws : List Nat) : List Nat :=
  let n := ws.length
  ws ++ [w32 (ssig1 (ws.getD (n - 2) 0) + ws.getD (n - 7) 0 +
              ssig0 (ws.getD (n - 15) 0) + ws.getD (n - 16) 0)]

/-- The 64-word SHA-256 message schedule of one 64-byte block. -/
def sha256Schedule (block : Bytes) : List Nat :=
  (List.range 48).foldl (fun ws _ => scheduleStep ws) ((chunksOf 3 block).map beWord)

/-- One SHA-256 compression round on the eight-word working state. -/
def sha256Round (st : List Nat) (kw : Nat × Nat) : List Nat :=
  match st with
  | [a, b, c, d, e, f, g, h] =>
    let t1 := w32 (h + bsig1 e + shaCh e f g + kw.1 + kw.2)
    let t2 := w32 (bsig0 a + shaMaj a b c)
    [w32 (t1 + t2), a, b, c, w32 (d + t1), e, f, g]
  | other => other

/-- SHA-256 compression of one 64-byte block into the running hash. -/
def sha256Compress (h : List Nat) (block : Bytes) : List Nat :=
  let st := (sha256K.zip (sha256Schedule block)).foldl sha256Round h
  List.zipWith (fun x y => w32 (x + y)) h st

/-- `hashlib.sha256(msg).digest()`: the 32-byte SHA-256 digest. -/
def sha256 (msg : Bytes) : Bytes :=
  (((chunksOf 63 (sha256Pad msg)).foldl sha256Compress sha256H0).map (beBytes 4)).flatten

/-! ### HMAC-SHA256 (the `hmac.new(key, msg, hashlib.sha256)` primitive) -/

/-- `hmac.new(key, msg, hashlib.sha256).digest()`: RFC 2104 HMAC over SHA-256
with a 64-byte block size. -/
def hmacSha256 (key msg : Bytes) : Bytes :=
  let k0 := if 64 < key.length then sha256 key else key
  let k := k0 ++ List.replicate (64 - k0.length) 0
  sha256 ((k.map (fun b => b ^^^ 92)) ++ sha256 ((k.map (fun b => b ^^^ 54)) ++ msg))

/-! ### Hex, UTF-8 and base64 encodings -/

/-- Lower-case hex digit. -/
def hexChar (n : Nat) : Char :=
  "0123456789abcdef".data.getD n '0'

/-- `.hexdigest()`: lower-case hex rendering of a byte string. -/
def hexDigest (bs : Bytes) : String :=
  String.mk (bs.flatMap (fun b => [hexChar (b / 16), hexChar (b % 16)]))

/-- UTF-8 encoding of one character (`str.encode("utf-8")`). -/
def utf8Char (c : Char) : Bytes :=
  let n := c.toNat
  if n < 128 then [n]
  else if n < 2048 then [192 + n / 64, 128 + n % 64]
  else if n < 65536 then [224 + n / 4096, 128 + (n / 64) % 64, 128 + n % 64]
  else [240 + n / 262144, 128 + (n / 4096) % 64, 128 + (n / 64) % 64, 128 + n % 64]

/-- UTF-8 encoding of a string (`str.encode("utf-8")`). -/
def utf8 (s : String) : Bytes := s.data.flatMap utf8Char

/-- The base64 alphabet (`base64.b64encode`). -/
def b64Char (n : Nat) : Char :=
  "ABCDEFGHIJKLMNOPQRSTUVWXYZabcdefghijklmnopqrstuvwxyz0123456789+/".data.getD n '='

/-- Encode one group of at most three bytes into four base64 characters. -/
def b64Group : Bytes → List Char
  | [a] => [b64Char (a / 4), b64Char (a % 4 * 16), '=', '=']
  | [a, b] => [b64Char (a / 4), b64Char (a % 4 * 16 + b / 16), b64Char (b % 16 * 4), '=']
  | [a, b, c] => [b64Char (a / 4), b64Char (a % 4 * 16 + b / 16),
                  b64Char (b % 16 * 4 + c / 64), b64Char (c % 64)]
  | _ => []

/-- `base64.b64encode(bs).decode("utf-8")`. -/
def base64 (bs : Bytes) : String :=
  String.mk ((chunksOf 2 bs).flatMap b64Group)

/-! ### Decimal rendering and parsing

Python renders `f"chunk_{chunk_index}"` with `str(int)` and parses it back
with `int(s)`; both are modelled on `List Char`. -/

/-- Little-endian-to-big-endian decimal digits of `n`, with an explicit fuel
argument so that reduction is structural (`fuel` must be at least `n`). -/
def natReprAux : Nat → Nat → List Char
  | 0, _ => []
  | fuel + 1, n => if n = 0 then [] else natReprAux fuel (n / 10) ++ [Nat.digitChar (n % 10)]

/-- `str(n)` for a natural number `n`, as a character list. -/
def natRepr (n : Nat) : List Char := if n = 0 then ['0'] else natReprAux (n + 1) n

/-- `int(s)` on a string of decimal digits, as used on chunk filenames. -/
def pyInt (l : List Char) : Nat := l.foldl (fun a c => 10 * a + (c.toNat - 48)) 0

/-- Auxiliary state-passing loop of Python `str.split(sep)`. -/
def splitCharAux (sep : Char) : List Char → List Char → List (List Char)
  | [], acc => [acc.reverse]
  | c :: rest, acc =>
    if c = sep then acc.reverse :: splitCharAux sep rest []
    else splitCharAux sep rest (c :: acc)

/-- Python `s.split(sep)` for a one-character separator. -/
def splitChar (sep : Char) (l : List Char) : List (List Char) := splitCharAux sep l []

/-! ### Timestamp formatting

The source takes `now = datetime.datetime.now(datetime.UTC)` and formats it
with `strftime`; time is modelled as seconds since the Unix epoch and the
civil-calendar conversion is the standard days-to-date algorithm, so the
formatting functions are pure and executable. -/

/-- Civil date `(year, month, day)` from days since 1970-01-01. -/
def civilFromDays (days : Nat) : Nat × Nat × Nat :=
  let z := days + 719468
  let era := z / 146097
  let doe := z % 146097
  let yoe := (doe - doe / 1460 + doe / 36524 - doe / 146096) / 365
  let y := yoe + era * 400
  let doy := doe - (365 * yoe + yoe / 4 - yoe / 100)
  let mp := (5 * doy + 2) / 153
  let d := doy - (153 * mp + 2) / 5 + 1
  let m := if mp < 10 then mp + 3 else mp - 9
  (if m ≤ 2 then y + 1 else y, m, d)

/-- Zero-padded decimal rendering on `w` characters. -/
def padNum (w n : Nat) : List Char :=
  List.replicate (w - (natRepr n).length) '0' ++ natRepr n

/-- `now.strftime("%Y%m%d")` for `t` seconds since the epoch. -/
def dateStampOf (t : Nat) : String :=
  let c := civilFromDays (t / 86400)
  String.mk (padNum 4 c.1 ++ padNum 2 c.2.1 ++ padNum 2 c.2.2)

/-- `now.strftime("%Y%m%dT%H%M%SZ")` for `t` seconds since the epoch. -/
def amzDateOf (t : Nat) : String :=
  let c := civilFromDays (t / 86400)
  String.mk (padNum 4 c.1 ++ padNum 2 c.2.1 ++ padNum 2 c.2.2 ++ ['T'] ++
    padNum 2 (t % 86400 / 3600) ++ padNum 2 (t % 3600 / 60) ++ padNum 2 (t % 60) ++ ['Z'])

/-- `now.strftime("%Y-%m-%dT%H:%M:%SZ")` for `t` seconds since the epoch. -/
def isoDateOf (t : Nat) : String :=
  let c := civilFromDays (t / 86400)
  String.mk (padNum 4 c.1 ++ ['-'] ++ padNum 2 c.2.1 ++ ['-'] ++ padNum 2 c.2.2 ++ ['T'] ++
    padNum 2 (t % 86400 / 3600) ++ [':'] ++ padNum 2 (t % 3600 / 60) ++ [':'] ++
    padNum 2 (t % 60) ++ ['Z'])

/-! ### JSON serialization (`json.dumps` with default separators) -/

/-- JSON escaping of one character as `json.dumps` performs it. -/
def jsonEscapeChar (c : Char) : List Char :=
  if c = '"' then ['\\', '"']
  else if c = '\\' then ['\\', '\\']
  else if c = Char.ofNat 10 then ['\\', 'n']
  else if c = Char.ofNat 9 then ['\\', 't']
  else if c = Char.ofNat 13 then ['\\', 'r']
  else if c.toNat < 32 then
    ['\\', 'u', '0', '0', hexChar (c.toNat / 16), hexChar (c.toNat % 16)]
  else [c]

/-- A JSON string literal. -/
def jsonStr (s : String) : List Char :=
  '"' :: s.data.flatMap jsonEscapeChar ++ ['"']

/-- The policy document built by `upload_file_multipart`: an expiration
timestamp and a conditions list of single-binding objects. -/
structure PolicyDocument where
  expiration : String
  conditions : List (String × String)
deriving DecidableEq

/-- One single-pair object of the conditions list, as `json.dumps` renders a
one-entry dict with default separators. -/
def jsonCondObj (kv : String × String) : List Char :=
  '\x7b' :: (jsonStr kv.1 ++ ':' :: ' ' :: jsonStr kv.2) ++ ['\x7d']

/-- `json.dumps(policy_document)` with Python's default separators and the
dict insertion order of the source. -/
def policyJsonOf (p : PolicyDocument) : String :=
  String.mk ('\x7b' ::
    (jsonStr "expiration" ++ ':' :: ' ' :: jsonStr p.expiration ++
     ',' :: ' ' :: jsonStr "conditions" ++ ':' :: ' ' ::
     '[' :: List.intercalate [',', ' '] (p.conditions.map jsonCondObj) ++ [']']) ++
    ['\x7d'])

/-! ### The S3 client (`s3/app/services/s3.py`)

The client is translated line by line. `datetime.datetime.now(datetime.UTC)`
is impure; it is passed in as an explicit `now : Nat` of epoch seconds, and
the HTTP exchange is passed in as a function from the issued request to the
backend's response, so that every network outcome is quantified over. -/

/-- `S3ClientException(status_code, message)` from the source. -/
structure S3ClientException where
  status_code : Nat
  message : String
deriving DecidableEq

/-- The `S3Client` constructor state. -/
structure S3Client where
  access_key : String
  secret_key : String
  endpoint : String
  region : String
deriving DecidableEq

/-- `S3Client.get_signature_key`: the AWS Signature Version 4 signing-key
derivation, translated from the source. -/
def S3Client.get_signature_key (key date_stamp region service : String) : Bytes :=
  let k_date := hmacSha256 (utf8 ("AWS4" ++ key)) (utf8 date_stamp)
  let k_region := hmacSha256 k_date (utf8 region)
  let k_service := hmacSha256 k_region (utf8 service)
  let k_signing := hmacSha256 k_service (utf8 "aws4_request")
  k_signing

/-- `S3Client.sign_request`, translated from the source; `headers` is the
dict passed in (empty at the call site) and the three signed headers are
added to it. -/
def S3Client.sign_request (c : S3Client) (method bucket key : String)
    (headers : List (String × String)) (payload_hash : String) (now : Nat) :
    List (String × String) :=
  let algorithm := "AWS4-HMAC-SHA256"
  let amz_date := amzDateOf now
  let date_stamp := dateStampOf now
  let canonical_uri := "/" ++ key
  let canonical_headers :=
    "host:" ++ bucket ++ "." ++ c.endpoint ++ "\n" ++
    "x-amz-content-sha256:" ++ payload_hash ++ "\n" ++
    "x-amz-date:" ++ amz_date ++ "\n"
  let signed_headers := "host;x-amz-content-sha256;x-amz-date"
  let canonical_request :=
    method ++ "\n" ++ canonical_uri ++ "\n\n" ++ canonical_headers ++ "\n" ++
    signed_headers ++ "\n" ++ payload_hash
  let credential_scope := date_stamp ++ "/" ++ c.region ++ "/s3/aws4_request"
  let string_to_sign :=
    algorithm ++ "\n" ++ amz_date ++ "\n" ++ credential_scope ++ "\n" ++
    hexDigest (sha256 (utf8 canonical_request))
  let signing_key := S3Client.get_signature_key c.secret_key date_stamp c.region "s3"
  let signature := hexDigest (hmacSha256 signing_key (utf8 string_to_sign))
  let authorization_header :=
    algorithm ++ " Credential=" ++ c.access_key ++ "/" ++ credential_scope ++
    ", SignedHeaders=" ++ signed_headers ++ ", Signature=" ++ signature
  headers ++ [("Authorization", authorization_header), ("x-amz-date", amz_date),
              ("x-amz-content-sha256", payload_hash)]

/-- A backend HTTP response: status code and body text. -/
structure HttpResponse where
  status : Nat
  body : String
deriving DecidableEq

/-- The PUT request `upload_file` issues: URL, headers and body. -/
structure PutRequest where
  url : String
  headers : List (String × String)
  body : Bytes
deriving DecidableEq

/-- The request `S3Client.upload_file` sends for given inputs (the pure
prefix of the method up to the `session.put` call). -/
def S3Client.uploadFileRequest (c : S3Client) (bucket key : String) (data : Bytes)
    (now : Nat) : PutRequest :=
  let payload_hash := hexDigest (sha256 data)
  let headers := c.sign_request "PUT" bucket key [] payload_hash now
  let url := "https://" ++ bucket ++ "." ++ c.endpoint ++ "/" ++ key
  ⟨url, headers, data⟩

/-- `S3Client.upload_file` with the byte payload already read: signs, issues
the PUT through `http`, and raises `S3ClientException` on any status other
than 200 or 204. -/
def S3Client.upload_file (c : S3Client) (bucket key : String) (data : Bytes)
    (now : Nat) (http : PutRequest → HttpResponse) : Except S3ClientException Unit :=
  let response := http (c.uploadFileRequest bucket key data now)
  if response.status = 200 ∨ response.status = 204 then Except.ok ()
  else Except.error ⟨response.status, response.body⟩

/-- The data computed by `S3Client.upload_file_multipart` before the POST:
policy document, its JSON and base64 renderings, signing key, signature,
timestamps, and the non-file form fields in order. -/
structure MultipartForm where
  amz_date : String
  date_stamp : String
  credential : String
  policy_document : PolicyDocument
  policy_json : String
  policy_base64 : String
  signing_key : Bytes
  signature : String
  fields : List (String × String)
deriving DecidableEq

/-- The pure prefix of `S3Client.upload_file_multipart`, translated from the
source: builds the POST policy, signs its base64 rendering, and assembles
the form fields. -/
def S3Client.upload_file_multipart_form (c : S3Client) (bucket key : String)
    (now : Nat) : MultipartForm :=
  let amz_date := amzDateOf now
  let date_stamp := dateStampOf now
  let service := "s3"
  let algorithm := "AWS4-HMAC-SHA256"
  let credential_scope := date_stamp ++ "/" ++ c.region ++ "/s3/aws4_request"
  let credential := c.access_key ++ "/" ++ credential_scope
  let expiration := isoDateOf (now + 3600)
  let policy_document : PolicyDocument :=
    ⟨expiration,
     [("bucket", bucket), ("key", key), ("x-amz-algorithm", algorithm),
      ("x-amz-credential", credential), ("x-amz-date", amz_date)]⟩
  let policy_json := policyJsonOf policy_document
  let policy_base64 := base64 (utf8 policy_json)
  let signing_key := S3Client.get_signature_key c.secret_key date_stamp c.region service
  let signature := hexDigest (hmacSha256 signing_key (utf8 policy_base64))
  { amz_date := amz_date, date_stamp := date_stamp, credential := credential,
    policy_document := policy_document, policy_json := policy_json,
    policy_base64 := policy_base64, signing_key := signing_key,
    signature := signature,
    fields := [("key", key), ("x-amz-algorithm", algorithm),
               ("x-amz-credential", credential), ("x-amz-date", amz_date),
               ("policy", policy_base64), ("x-amz-signature", signature)] }

/-- `S3Client.upload_file_multipart`: POSTs the form through `http` and
raises `S3ClientException` on any status other than 200 or 204. -/
def S3Client.upload_file_multipart (c : S3Client) (bucket key : String)
    (fileData : Bytes) (now : Nat)
    (http : MultipartForm → Bytes → HttpResponse) : Except S3ClientException Unit :=
  let form := c.upload_file_multipart_form bucket key now
  let response := http form fileData
  if response.status = 200 ∨ response.status = 204 then Except.ok ()
  else Except.error ⟨response.status, response.body⟩

/-! ### The upload routers (`s3/app/routers/chunk_upload.py`, `file_upload.py`)

The filesystem under the upload root is modelled explicitly: one directory
per session keyed by upload id, holding files keyed by name, plus the merged
artifacts written directly into the upload root. The handlers are translated
from the source; FastAPI serializes a *returned* `HTTPExeption` object as an
ordinary 200 response body, while a *raised* one produces its error status,
so the two are kept distinct in `HandlerResult`. The storage transfer of
`complete` is abstracted as `transfer : Bytes → Option S3ClientException`
(`none` = the awaited upload returned, `some e` = it raised), quantifying
over every backend outcome including I/O faults. -/

/-- A file name inside a staging directory. -/
abbrev FileName := List Char

/-- A session staging directory: files keyed by name. -/
abbrev Dir := List (FileName × Bytes)

/-- The state under the upload root: staging directories keyed by upload id,
and merged artifact files keyed by their file name. -/
structure UploadState where
  sessions : List (String × Dir)
  rootFiles : List (String × Bytes)
deriving DecidableEq

/-- The value a handler produces: a normally returned JSON-serializable
value (HTTP 200), or a raised exception (its own status). -/
inductive HandlerResult where
  /-- A value returned from the handler body; FastAPI serializes it with
  status 200. `detail` is the `{"detail": ...}` dict. -/
  | detail (s : String) : HandlerResult
  /-- An `HTTPExeption` object *returned* (not raised) from the handler
  body; still an HTTP 200 response whose body serializes the object. -/
  | returnedException (status : Nat) (message : String) : HandlerResult
  /-- An exception raised out of the handler: an error response with the
  exception's status. -/
  | raised (status : Nat) (message : String) : HandlerResult
deriving DecidableEq

/-- The HTTP status code of the response a handler result produces. -/
def HandlerResult.httpStatus : HandlerResult → Nat
  | .detail _ => 200
  | .returnedException _ _ => 200
  | .raised s _ => s

/-- Writing a file: overwrite the entry with the same name if present, else
append a fresh entry (last write wins, one entry per name). -/
def fsWrite {κ : Type} [DecidableEq κ] (d : List (κ × Bytes)) (name : κ)
    (content : Bytes) : List (κ × Bytes) :=
  if d.any (fun e => e.1 = name) then
    d.map (fun e => if e.1 = name then (name, content) else e)
  else d ++ [(name, content)]

/-- `os.path.exists` on a session's staging directory, as the handlers use
it (the directory listing when it exists). -/
def lookupSession (st : UploadState) (uid : String) : Option Dir :=
  st.sessions.lookup uid

/-- `f"chunk_{chunk_index}"`: the staged chunk file name. -/
def chunkFileName (i : Nat) : FileName := "chunk_".data ++ natRepr i

/-- `upload_chunk_handler`, translated from the source: on a missing staging
directory the `HTTPExeption(status_code=403, detail="Invalid upload id")`
object is returned (not raised); otherwise the chunk body is streamed into
`chunk_{chunk_index}` and `{"detail": "chunk uploaded"}` is returned. -/
def upload_chunk_handler (st : UploadState) (upload_id : String)
    (chunk_index : Nat) (content : Bytes) : HandlerResult × UploadState :=
  match lookupSession st upload_id with
  | none => (.returnedException 403 "Invalid upload id", st)
  | some d =>
    let d' := fsWrite d (chunkFileName chunk_index) content
    (.detail "chunk uploaded",
     { st with sessions := st.sessions.map (fun e => if e.1 = upload_id then (upload_id, d') else e) })

/-- `int(x.split("_")[1])`: the numeric index parsed from a chunk file
name, exactly as the sort key of `complete_upload_handler` computes it. -/
def parsedIndex (name : FileName) : Nat :=
  pyInt ((splitChar '_' name).getD 1 [])

/-- The sort key order of `sorted(..., key=lambda x: int(x.split("_")[1]))`. -/
def idxLe (a b : FileName × Bytes) : Prop := parsedIndex a.1 ≤ parsedIndex b.1

/-- Strict version of `idxLe`, used to identify the sorted listing. -/
def idxLt (a b : FileName × Bytes) : Prop := parsedIndex a.1 < parsedIndex b.1

instance : DecidableRel idxLe := fun a b => Nat.decLe (parsedIndex a.1) (parsedIndex b.1)

instance : DecidableRel idxLt := fun a b => Nat.decLt (parsedIndex a.1) (parsedIndex b.1)

instance : IsTotal (FileName × Bytes) idxLe := ⟨fun a b => Nat.le_total (parsedIndex a.1) (parsedIndex b.1)⟩

instance : IsTrans (FileName × Bytes) idxLe := ⟨fun _ _ _ => Nat.le_trans⟩

instance : IsAntisymm (FileName × Bytes) idxLt :=
  ⟨fun _ _ h h' => absurd h' (Nat.lt_asymm h)⟩

/-- The chunk files of a staging directory in merge order: the entries whose
name starts with `chunk_`, sorted ascending by parsed numeric index. Python's
`sorted` is a stable ascending sort by key, modelled by the stable
`List.insertionSort` under the same key order. -/
def completeChunkList (d : Dir) : List (FileName × Bytes) :=
  List.insertionSort idxLe (d.filter (fun e => "chunk_".data.isPrefixOf e.1))

/-- The merged artifact bytes `complete_upload_handler` writes: the
concatenation of the chunk files' contents in merge order. -/
def completeMerge (d : Dir) : Bytes :=
  ((completeChunkList d).map (fun e => e.2)).flatten

/-- The outcome of one `complete_upload_handler` call: the handler result,
the final filesystem state, and whether the storage transfer was attempted. -/
structure CompleteOutcome where
  result : HandlerResult
  state : UploadState
  networkCalled : Bool
deriving DecidableEq

/-- `complete_upload_handler`, translated from the source: validate the
session, merge the chunks into `f"{upload_id}_{filename}"` under the upload
root, remove the staging directory, attempt the storage transfer, and remove
the merged artifact only when the transfer succeeded. On a missing session
the 403 `HTTPExeption` object is returned before any filesystem or network
effect; on a transfer exception the 500 `HTTPExeption` object is returned
with the merged artifact still on disk. -/
def complete_upload_handler (st : UploadState) (upload_id filename : String)
    (transfer : Bytes → Option S3ClientException) : CompleteOutcome :=
  match lookupSession st upload_id with
  | none => ⟨.returnedException 403 "Invalid upload id", st, false⟩
  | some d =>
    let merged := completeMerge d
    let mergedName := upload_id ++ "_" ++ filename
    let st1 : UploadState :=
      { sessions := st.sessions.filter (fun e => ¬e.1 = upload_id),
        rootFiles := fsWrite st.rootFiles mergedName merged }
    match transfer merged with
    | some _ => ⟨.returnedException 500 "Error uploading merged file to S3", st1, true⟩
    | none =>
      ⟨.detail "Successful Upload Video",
       { st1 with rootFiles := st1.rootFiles.filter (fun e => ¬e.1 = mergedName) }, true⟩

/-! ### The single-shot file router (`s3/app/routers/file_upload.py`) -/

/-- The keyword-accepting parameters of `S3Client.upload_file_multipart`
(`self, bucket, key, file_path` — there is no `file_bytes` parameter). -/
def upload_file_multipart_params : List String := ["self", "bucket", "key", "file_path"]

/-- Python call semantics for keyword arguments: a call with a keyword not
among the callee's parameters raises `TypeError` before the body runs. -/
def pyKeywordsAccepted (params kwargs : List String) : Bool :=
  kwargs.all (fun k => params.contains k)

/-- What `POST /upload/file/` does with the posted file. -/
inductive FileUploadOutcome where
  /-- An upload of the given payload to the given bucket and key reached the
  storage backend. -/
  | uploaded (bucket key : String) (payload : Bytes) : FileUploadOutcome
  /-- The handler raised `HTTPExeption(status_code=500, detail="S3 upload failed")`. -/
  | failed (status : Nat) (message : String) : FileUploadOutcome
deriving DecidableEq

/-- `upload_file` of `file_upload.py`, translated from the source: the body
binds `file_bytes = file.read()` (a coroutine object — the call is never
awaited) and invokes `upload_file_multipart(bucket, key, file_bytes=...)`.
`upload_file_multipart` accepts no `file_bytes` keyword, so the call raises
`TypeError` before any upload; the bare `except:` turns every failure into a
raised 500 `HTTPExeption`. -/
def file_upload_handler (bucket filename : String) (contents : Bytes) : FileUploadOutcome :=
  if pyKeywordsAccepted upload_file_multipart_params ["file_bytes"] then
    .uploaded bucket ("example/" ++ filename) contents
  else
    .failed 500 "S3 upload failed"

/-! ### Round-trip facts about chunk file names -/

theorem natReprAux_eq_digits : ∀ (fuel n : Nat), n ≤ fuel →
    natReprAux fuel n = (Nat.digits 10 n).reverse.map Nat.digitChar := by
  intro fuel
  induction fuel with
  | zero =>
    intro n hn
    interval_cases n
    simp [natReprAux]
  | succ fuel ih =>
    intro n hn
    by_cases h0 : n = 0
    · subst h0; simp [natReprAux]
    · have hpos : 0 < n := Nat.pos_of_ne_zero h0
      have hdiv : n / 10 < n := Nat.div_lt_self hpos (by norm_num)
      rw [natReprAux, if_neg h0, ih (n / 10) (by omega),
        Nat.digits_def' (by norm_num : (1 : ℕ) < 10) hpos]
      simp

theorem digitChar_sub_48 (d : Nat) (h : d < 10) : (Nat.digitChar d).toNat - 48 = d := by
  interval_cases d <;> rfl

theorem digitChar_ne_underscore (d : Nat) (h : d < 10) : Nat.digitChar d ≠ '_' := by
  interval_cases d <;> decide

theorem pyInt_rev_digits : ∀ (ds : List Nat), (∀ d ∈ ds, d < 10) →
    pyInt (ds.reverse.map Nat.digitChar) = Nat.ofDigits 10 ds := by
  intro ds
  induction ds with
  | nil => intro _; rfl
  | cons d ds ih =>
    intro h
    have hd : d < 10 := h d (by simp)
    have hds : ∀ x ∈ ds, x < 10 := fun x hx => h x (by simp [hx])
    have : pyInt ((ds.reverse ++ [d]).map Nat.digitChar) =
        10 * pyInt (ds.reverse.map Nat.digitChar) + ((Nat.digitChar d).toNat - 48) := by
      simp [pyInt, List.foldl_append]
    rw [List.reverse_cons, this, ih hds, digitChar_sub_48 d hd, Nat.ofDigits_cons]
    ring

theorem pyInt_natRepr (n : Nat) : pyInt (natRepr n) = n := by
  by_cases h0 : n = 0
  · subst h0; rfl
  · rw [natRepr, if_neg h0, natReprAux_eq_digits (n + 1) n (by omega),
      pyInt_rev_digits _ (fun d hd => Nat.digits_lt_base (by norm_num) hd)]
    exact_mod_cast Nat.ofDigits_digits 10 n

theorem natRepr_ne_underscore (n : Nat) : ∀ c ∈ natRepr n, c ≠ '_' := by
  by_cases h0 : n = 0
  · subst h0; intro c hc; simp [natRepr] at hc; subst hc; decide
  · rw [natRepr, if_neg h0, natReprAux_eq_digits (n + 1) n (by omega)]
    intro c hc
    simp only [List.mem_map, List.mem_reverse] at hc
    obtain ⟨d, hd, rfl⟩ := hc
    exact digitChar_ne_underscore d (Nat.digits_lt_base (by norm_num) hd)

theorem splitCharAux_of_no_sep (sep : Char) :
    ∀ (l acc : List Char), sep ∉ l → splitCharAux sep l acc = [acc.reverse ++ l] := by
  intro l
  induction l with
  | nil => intro acc _; simp [splitCharAux]
  | cons c rest ih =>
    intro acc h
    have hc : ¬c = sep := fun hcs => h (by simp [hcs])
    have hrest : sep ∉ rest := fun hr => h (by simp [hr])
    rw [splitCharAux, if_neg hc, ih (c :: acc) hrest]
    simp

theorem splitChar_chunkFileName (i : Nat) :
    splitChar '_' (chunkFileName i) = [['c', 'h', 'u', 'n', 'k'], natRepr i] := by
  have hdata : chunkFileName i = 'c' :: 'h' :: 'u' :: 'n' :: 'k' :: '_' :: natRepr i := rfl
  have hnosep : '_' ∉ natRepr i := fun hmem => natRepr_ne_underscore i '_' hmem rfl
  rw [splitChar, hdata]
  rw [splitCharAux, if_neg (by decide), splitCharAux, if_neg (by decide),
    splitCharAux, if_neg (by decide), splitCharAux, if_neg (by decide),
    splitCharAux, if_neg (by decide), splitCharAux, if_pos rfl,
    splitCharAux_of_no_sep '_' (natRepr i) [] hnosep]
  simp

theorem parsedIndex_chunkFileName (i : Nat) : parsedIndex (chunkFileName i) = i := by
  rw [parsedIndex, splitChar_chunkFileName]
  exact pyInt_natRepr i

theorem chunkFileName_injective : Function.Injective chunkFileName := by
  intro i j h
  have := parsedIndex_chunkFileName i
  rw [h, parsedIndex_chunkFileName j] at this
  exact this.symm

theorem isPrefixOf_self_append (p s : List Char) : p.isPrefixOf (p ++ s) = true := by
  induction p with
  | nil => simp [List.isPrefixOf]
  | cons c cs ih => simp [List.isPrefixOf, ih]

/-! ### The merge order: numeric sort correctness -/

/-- The encoding a write performs: index `i` with body `b` becomes the file
`chunk_{i}` with contents `b`. -/
def encChunk (p : Nat × Bytes) : FileName × Bytes := (chunkFileName p.1, p.2)

/-- Ascending order on chunk indices before encoding. -/
def fstLe (a b : Nat × Bytes) : Prop := a.1 ≤ b.1

/-- Strict order on chunk indices before encoding. -/
def fstLt (a b : Nat × Bytes) : Prop := a.1 < b.1

instance : DecidableRel fstLe := fun a b => Nat.decLe a.1 b.1

instance : DecidableRel fstLt := fun a b => Nat.decLt a.1 b.1

instance : IsTotal (Nat × Bytes) fstLe := ⟨fun a b => Nat.le_total a.1 b.1⟩

instance : IsTrans (Nat × Bytes) fstLe := ⟨fun _ _ _ => Nat.le_trans⟩

instance : IsAntisymm (Nat × Bytes) fstLt :=
  ⟨fun _ _ h h' => absurd h' (Nat.lt_asymm h)⟩

theorem pairwise_key_lt {α : Type} (key : α → Nat) :
    ∀ {l : List α}, l.Pairwise (fun a b => key a ≤ key b) →
      l.Pairwise (fun a b => key a ≠ key b) →
      l.Pairwise (fun a b => key a < key b) := by
  intro l
  induction l with
  | nil => intro _ _; exact List.Pairwise.nil
  | cons a l ih =>
    intro hle hne
    rw [List.pairwise_cons] at hle hne ⊢
    exact ⟨fun b hb => Nat.lt_of_le_of_ne (hle.1 b hb) (hne.1 b hb), ih hle.2 hne.2⟩

theorem parsedIndex_encChunk (p : Nat × Bytes) : parsedIndex (encChunk p).1 = p.1 :=
  parsedIndex_chunkFileName p.1

/-- Sorting the encoded directory listing by parsed numeric index agrees
with sorting the index-to-bytes pairs by index, whenever the indices are
distinct (which file-per-index storage guarantees). -/
theorem insertionSort_encChunk (l : List (Nat × Bytes))
    (h : (l.map Prod.fst).Nodup) :
    List.insertionSort idxLe (l.map encChunk) =
      (List.insertionSort fstLe l).map encChunk := by
  have hKeys : l.Pairwise (fun a b => a.1 ≠ b.1) := by
    rw [List.Nodup, List.pairwise_map] at h
    exact h
  have permA : List.Perm (List.insertionSort idxLe (l.map encChunk)) (l.map encChunk) :=
    List.perm_insertionSort idxLe (l.map encChunk)
  have permB : List.Perm ((List.insertionSort fstLe l).map encChunk) (l.map encChunk) :=
    (List.perm_insertionSort fstLe l).map encChunk
  have hne : (l.map encChunk).Pairwise (fun a b => parsedIndex a.1 ≠ parsedIndex b.1) := by
    rw [List.pairwise_map]
    refine hKeys.imp ?_
    intro a b hab
    simpa [parsedIndex_encChunk] using hab
  have hsymm : ∀ {x y : FileName × Bytes},
      parsedIndex x.1 ≠ parsedIndex y.1 → parsedIndex y.1 ≠ parsedIndex x.1 :=
    fun hxy => hxy.symm
  have sortedA : List.Pairwise idxLt (List.insertionSort idxLe (l.map encChunk)) := by
    have hle : List.Pairwise idxLe (List.insertionSort idxLe (l.map encChunk)) :=
      List.sorted_insertionSort idxLe (l.map encChunk)
    have hneA : (List.insertionSort idxLe (l.map encChunk)).Pairwise
        (fun a b => parsedIndex a.1 ≠ parsedIndex b.1) :=
      (permA.pairwise_iff hsymm).mpr hne
    exact pairwise_key_lt (fun e : FileName × Bytes => parsedIndex e.1) hle hneA
  have sortedB : List.Pairwise idxLt ((List.insertionSort fstLe l).map encChunk) := by
    have hle : List.Pairwise fstLe (List.insertionSort fstLe l) :=
      List.sorted_insertionSort fstLe l
    have hneB : (List.insertionSort fstLe l).Pairwise (fun a b => a.1 ≠ b.1) :=
      ((List.perm_insertionSort fstLe l).pairwise_iff (fun hxy => hxy.symm)).mpr hKeys
    rw [List.pairwise_map]
    have := pairwise_key_lt (fun p : Nat × Bytes => p.1) hle hneB
    refine this.imp ?_
    intro a b hab
    show parsedIndex (encChunk a).1 < parsedIndex (encChunk b).1
    simpa [parsedIndex_encChunk] using hab
  exact List.eq_of_perm_of_sorted (permA.trans permB.symm) sortedA sortedB

/-- The chunk-file filter keeps every encoded chunk. -/
theorem filter_encChunk (l : List (Nat × Bytes)) :
    (l.map encChunk).filter (fun e => "chunk_".data.isPrefixOf e.1) = l.map encChunk := by
  rw [List.filter_eq_self]
  intro a ha
  obtain ⟨p, _, rfl⟩ := List.mem_map.mp ha
  exact isPrefixOf_self_append "chunk_".data (natRepr p.1)

/-- Reassembly of a directory of encoded chunks concatenates the bodies in
ascending numeric index order. -/
theorem completeMerge_encChunk (l : List (Nat × Bytes))
    (h : (l.map Prod.fst).Nodup) :
    completeMerge (l.map encChunk) =
      ((List.insertionSort fstLe l).map Prod.snd).flatten := by
  rw [completeMerge, completeChunkList, filter_encChunk, insertionSort_encChunk l h,
    List.map_map]
  rfl

/-! ### Write sequences -/

/-- Apply a sequence of `writeChunk` bodies to a staging directory: each
write stores `content` under `chunk_{index}`, last write winning. -/
def applyWrites (ws : List (Nat × Bytes)) (d : Dir) : Dir :=
  ws.foldl (fun d p => fsWrite d (chunkFileName p.1) p.2) d

theorem applyWrites_of_fresh :
    ∀ (ws : List (Nat × Bytes)) (d : Dir), (ws.map Prod.fst).Nodup →
      (∀ p ∈ ws, ∀ e ∈ d, e.1 ≠ chunkFileName p.1) →
      applyWrites ws d = d ++ ws.map encChunk := by
  intro ws
  induction ws with
  | nil => intro d _ _; simp [applyWrites]
  | cons w ws ih =>
    intro d hnodup hfresh
    have hnotin : d.any (fun e => e.1 = chunkFileName w.1) = false := by
      rw [List.any_eq_false]
      intro e he
      simpa using hfresh w (by simp) e he
    have hstep : fsWrite d (chunkFileName w.1) w.2 = d ++ [encChunk w] := by
      rw [fsWrite, if_neg (by simp [hnotin])]
      rfl
    have hw_notin : w.1 ∉ ws.map Prod.fst := by
      have := hnodup
      rw [List.map_cons, List.nodup_cons] at this
      exact this.1
    have htail : applyWrites ws (d ++ [encChunk w]) = (d ++ [encChunk w]) ++ ws.map encChunk := by
      refine ih (d ++ [encChunk w]) ?_ ?_
      · have := hnodup
        rw [List.map_cons, List.nodup_cons] at this
        exact this.2
      · intro p hp e he
        rcases List.mem_append.mp he with hd | hw
        · exact hfresh p (by simp [hp]) e hd
        · have : e = encChunk w := by simpa using hw
          subst this
          intro hcontra
          have hidx : w.1 = p.1 := chunkFileName_injective hcontra
          exact hw_notin (hidx ▸ List.mem_map_of_mem Prod.fst hp)
    calc applyWrites (w :: ws) d
        = applyWrites ws (fsWrite d (chunkFileName w.1) w.2) := rfl
      _ = applyWrites ws (d ++ [encChunk w]) := by rw [hstep]
      _ = (d ++ [encChunk w]) ++ ws.map encChunk := htail
      _ = d ++ (w :: ws).map encChunk := by simp

/-- Two write sequences that are permutations of each other with distinct
indices produce the same sorted listing. -/
theorem insertionSort_eq_of_perm (ws ws' : List (Nat × Bytes))
    (hperm : List.Perm ws ws') (h : (ws.map Prod.fst).Nodup) :
    List.insertionSort fstLe ws = List.insertionSort fstLe ws' := by
  have hKeys : ws.Pairwise (fun a b => a.1 ≠ b.1) := by
    rw [List.Nodup, List.pairwise_map] at h
    exact h
  have hsymm : ∀ {x y : Nat × Bytes}, x.1 ≠ y.1 → y.1 ≠ x.1 := fun hxy => hxy.symm
  have hKeys' : ws'.Pairwise (fun a b => a.1 ≠ b.1) := (hperm.pairwise_iff hsymm).mp hKeys
  have p1 : List.Perm (List.insertionSort fstLe ws) (List.insertionSort fstLe ws') :=
    ((List.perm_insertionSort fstLe ws).trans hperm).trans
      (List.perm_insertionSort fstLe ws').symm
  have s1 : List.Pairwise fstLt (List.insertionSort fstLe ws) :=
    pairwise_key_lt (fun p : Nat × Bytes => p.1)
      (List.sorted_insertionSort fstLe ws)
      (((List.perm_insertionSort fstLe ws).pairwise_iff hsymm).mpr hKeys)
  have s2 : List.Pairwise fstLt (List.insertionSort fstLe ws') :=
    pairwise_key_lt (fun p : Nat × Bytes => p.1)
      (List.sorted_insertionSort fstLe ws')
      (((List.perm_insertionSort fstLe ws').pairwise_iff hsymm).mpr hKeys')
  exact List.eq_of_perm_of_sorted p1 s1 s2

/-! ### Session lookup -/

theorem lookup_filter_ne (s : List (String × Dir)) (uid : String) :
    (s.filter (fun e => ¬e.1 = uid)).lookup uid = none := by
  induction s with
  | nil => rfl
  | cons e s ih =>
    obtain ⟨k, v⟩ := e
    by_cases he : k = uid
    · rw [List.filter_cons, if_neg (by simp [he])]
      exact ih
    · rw [List.filter_cons, if_pos (by simp [he])]
      have hbe : (uid == k) = false := by
        simp only [beq_eq_false_iff_ne]
        exact fun hc => he hc.symm
      simp only [List.lookup, hbe]
      exact ih

/-! ### Claims -/

/-- C1: Reassembly during complete orders chunk files by the numeric index
parsed from the filename (`int(x.split("_")[1])`), ascending, and
concatenates their bytes in that order into the merged file: for a staging
directory of files `chunk_{i}` with distinct indices, the merged bytes are
the concatenation of the bodies sorted ascending by numeric index — so the
chunk of index 10 follows the chunk of index 9 and never sits between
indices 1 and 2 as a lexicographic sort of the filenames would place it. -/
theorem complete_merges_in_ascending_numeric_order (l : List (Nat × Bytes))
    (h : (l.map Prod.fst).Nodup) :
    completeMerge (l.map encChunk) =
      ((List.insertionSort fstLe l).map Prod.snd).flatten :=
  completeMerge_encChunk l h

/-- Witness for C1 at a directory holding `chunk_10, chunk_2, chunk_9,
chunk_1`: index 10 sorts after 9, not between 1 and 2. -/
theorem complete_merges_in_ascending_numeric_order_witness :
    (([(10, ([255] : Bytes)), (2, [2]), (9, [9]), (1, [1])].map Prod.fst).Nodup) ∧
    completeMerge ([(10, ([255] : Bytes)), (2, [2]), (9, [9]), (1, [1])].map encChunk) =
      ((List.insertionSort fstLe
          [(10, ([255] : Bytes)), (2, [2]), (9, [9]), (1, [1])]).map Prod.snd).flatten :=
  ⟨by decide, complete_merges_in_ascending_numeric_order _ (by decide)⟩

/-- C2: writing the chunks of indices `0..N-1` in any arrival order and then
reassembling yields bytes identical to writing them in index order `0..N-1`
and reassembling — the merged output depends only on the final
index-to-bytes mapping. -/
theorem reassembly_independent_of_write_order (N : Nat) (f : Nat → Bytes)
    (ws : List (Nat × Bytes))
    (hperm : List.Perm ws ((List.range N).map (fun i => (i, f i)))) :
    completeMerge (applyWrites ws []) =
      completeMerge (applyWrites ((List.range N).map (fun i => (i, f i))) []) := by
  have hOrdKeys : (((List.range N).map (fun i => (i, f i))).map Prod.fst).Nodup := by
    rw [List.map_map]
    have hcomp : (Prod.fst ∘ fun i : Nat => (i, f i)) = id := rfl
    rw [hcomp, List.map_id]
    exact List.nodup_range N
  have hWsKeys : (ws.map Prod.fst).Nodup :=
    (hperm.map Prod.fst).nodup_iff.mpr hOrdKeys
  have h1 : applyWrites ws [] = ws.map encChunk :=
    applyWrites_of_fresh ws [] hWsKeys (by intro p _ e he; cases he)
  have h2 : applyWrites ((List.range N).map (fun i => (i, f i))) [] =
      ((List.range N).map (fun i => (i, f i))).map encChunk :=
    applyWrites_of_fresh _ [] hOrdKeys (by intro p _ e he; cases he)
  rw [h1, h2, completeMerge_encChunk ws hWsKeys, completeMerge_encChunk _ hOrdKeys,
    insertionSort_eq_of_perm ws _ hperm hWsKeys]

/-- Witness for C2: three chunks arriving in the order 2, 0, 1. -/
theorem reassembly_independent_of_write_order_witness :
    List.Perm [(2, ([2] : Bytes)), (0, [0]), (1, [1])]
      ((List.range 3).map (fun i => (i, ([i] : Bytes)))) ∧
    completeMerge (applyWrites [(2, ([2] : Bytes)), (0, [0]), (1, [1])] []) =
      completeMerge (applyWrites ((List.range 3).map (fun i => (i, ([i] : Bytes)))) []) :=
  ⟨by decide, reassembly_independent_of_write_order 3 (fun i => [i]) _ (by decide)⟩

/-- The signing-key derivation as the specification words it: the four-step
HMAC-SHA256 chain `kDate`, `kRegion`, `kService`, `aws4_request`. Stated
from the spec for comparison against the source's `get_signature_key`. -/
def deriveSigningKey (secretKey dateStamp region service : String) : Bytes :=
  let kDate := hmacSha256 (utf8 ("AWS4" ++ secretKey)) (utf8 dateStamp)
  let kRegion := hmacSha256 kDate (utf8 region)
  let kService := hmacSha256 kRegion (utf8 service)
  hmacSha256 kService (utf8 "aws4_request")

/-- C3: `get_signature_key` is a pure deterministic function equal to the
four-step HMAC-SHA256 chain of the spec; identical inputs always produce
identical output bytes. -/
theorem get_signature_key_is_hmac_chain (k₁ k₂ d₁ d₂ r₁ r₂ s₁ s₂ : String)
    (hk : k₁ = k₂) (hd : d₁ = d₂) (hr : r₁ = r₂) (hs : s₁ = s₂) :
    S3Client.get_signature_key k₁ d₁ r₁ s₁ = deriveSigningKey k₁ d₁ r₁ s₁ ∧
    S3Client.get_signature_key k₁ d₁ r₁ s₁ = S3Client.get_signature_key k₂ d₂ r₂ s₂ := by
  subst hk hd hr hs
  exact ⟨rfl, rfl⟩

/-- Witness for C3 at concrete credentials. -/
theorem get_signature_key_is_hmac_chain_witness :
    S3Client.get_signature_key "sk" "20261012" "ru-1" "s3" =
      deriveSigningKey "sk" "20261012" "ru-1" "s3" ∧
    S3Client.get_signature_key "sk" "20261012" "ru-1" "s3" =
      S3Client.get_signature_key "sk" "20261012" "ru-1" "s3" :=
  get_signature_key_is_hmac_chain "sk" "sk" "20261012" "20261012" "ru-1" "ru-1" "s3" "s3"
    rfl rfl rfl rfl

/-- C4: the multipart policy document carries `expiration = now + 1 hour`,
its conditions bind exactly bucket, key, algorithm, credential and date, the
signature is the hex HMAC-SHA256 of the base64-encoded policy JSON (the
signed message is `policy_base64`, not the raw JSON), and the signing-key
date stamp and the embedded `x-amz-date` both come from the same `now`. -/
theorem multipart_policy_document_correct (c : S3Client) (bucket key : String) (now : Nat) :
    (c.upload_file_multipart_form bucket key now).policy_document.expiration =
      isoDateOf (now + 3600) ∧
    (c.upload_file_multipart_form bucket key now).policy_document.conditions =
      [("bucket", bucket), ("key", key), ("x-amz-algorithm", "AWS4-HMAC-SHA256"),
       ("x-amz-credential",
        c.access_key ++ "/" ++ (dateStampOf now ++ "/" ++ c.region ++ "/s3/aws4_request")),
       ("x-amz-date", amzDateOf now)] ∧
    (c.upload_file_multipart_form bucket key now).policy_json =
      policyJsonOf (c.upload_file_multipart_form bucket key now).policy_document ∧
    (c.upload_file_multipart_form bucket key now).policy_base64 =
      base64 (utf8 (c.upload_file_multipart_form bucket key now).policy_json) ∧
    (c.upload_file_multipart_form bucket key now).signing_key =
      S3Client.get_signature_key c.secret_key (dateStampOf now) c.region "s3" ∧
    (c.upload_file_multipart_form bucket key now).signature =
      hexDigest (hmacSha256
        (S3Client.get_signature_key c.secret_key (dateStampOf now) c.region "s3")
        (utf8 ((c.upload_file_multipart_form bucket key now).policy_base64))) ∧
    (c.upload_file_multipart_form bucket key now).amz_date = amzDateOf now ∧
    (c.upload_file_multipart_form bucket key now).fields =
      [("key", key), ("x-amz-algorithm", "AWS4-HMAC-SHA256"),
       ("x-amz-credential",
        c.access_key ++ "/" ++ (dateStampOf now ++ "/" ++ c.region ++ "/s3/aws4_request")),
       ("x-amz-date", amzDateOf now),
       ("policy", (c.upload_file_multipart_form bucket key now).policy_base64),
       ("x-amz-signature", (c.upload_file_multipart_form bucket key now).signature)] :=
  ⟨rfl, rfl, rfl, rfl, rfl, rfl, rfl, rfl⟩

/-- C8: `upload_file` computes SHA256 of the payload, signs, and issues a
PUT to `https://{bucket}.{endpoint}/{key}`; it succeeds exactly when the
response status is 200 or 204 and otherwise raises `S3ClientException` with
that status and the response body text. -/
theorem upload_file_success_iff_2xx (c : S3Client) (bucket key : String) (data : Bytes)
    (now : Nat) (http : PutRequest → HttpResponse) :
    (c.uploadFileRequest bucket key data now).url =
      "https://" ++ bucket ++ "." ++ c.endpoint ++ "/" ++ key ∧
    ("x-amz-content-sha256", hexDigest (sha256 data)) ∈
      (c.uploadFileRequest bucket key data now).headers ∧
    (c.uploadFileRequest bucket key data now).body = data ∧
    c.upload_file bucket key data now http =
      (if (http (c.uploadFileRequest bucket key data now)).status = 200 ∨
          (http (c.uploadFileRequest bucket key data now)).status = 204
       then Except.ok ()
       else Except.error ⟨(http (c.uploadFileRequest bucket key data now)).status,
                          (http (c.uploadFileRequest bucket key data now)).body⟩) ∧
    (c.upload_file bucket key data now http = Except.ok () ↔
      ((http (c.uploadFileRequest bucket key data now)).status = 200 ∨
       (http (c.uploadFileRequest bucket key data now)).status = 204)) := by
  refine ⟨rfl, ?_, rfl, rfl, ?_⟩
  · simp [S3Client.uploadFileRequest, S3Client.sign_request]
  · by_cases hst : (http (c.uploadFileRequest bucket key data now)).status = 200 ∨
        (http (c.uploadFileRequest bucket key data now)).status = 204
    · simp [S3Client.upload_file, hst]
    · simp [S3Client.upload_file, hst]

/-- C9: the `POST /upload/file/` handler can never perform the upload: the
body passes the unsupported keyword `file_bytes` to
`upload_file_multipart`, so the call raises `TypeError` and the bare
`except:` converts every request into the raised 500 `HTTPExeption` with
detail `S3 upload failed`; no payload ever reaches the storage backend. -/
theorem file_upload_handler_always_fails (bucket filename : String) (contents : Bytes) :
    file_upload_handler bucket filename contents = .failed 500 "S3 upload failed" ∧
    ∀ (b k : String) (payload : Bytes),
      file_upload_handler bucket filename contents ≠ .uploaded b k payload := by
  constructor
  · rfl
  · intro b k payload hcontra
    rw [show file_upload_handler bucket filename contents = .failed 500 "S3 upload failed"
        from rfl] at hcontra
    exact FileUploadOutcome.noConfusion hcontra

/-- C5: `complete` on a session id with no staging directory returns the
`InvalidSession` client-error result (the 403 invalid-upload-id outcome)
with no network call attempted and the filesystem state untouched — no
side-effecting I/O happens before the existence check. -/
theorem complete_invalid_session_no_network (st : UploadState) (uid fname : String)
    (transfer : Bytes → Option S3ClientException)
    (h : lookupSession st uid = none) :
    complete_upload_handler st uid fname transfer =
      ⟨.returnedException 403 "Invalid upload id", st, false⟩ := by
  simp only [complete_upload_handler, h]

/-- Witness for C5: completing an unknown session id on an empty root. -/
theorem complete_invalid_session_no_network_witness :
    lookupSession ⟨[], []⟩ "nope" = none ∧
    complete_upload_handler ⟨[], []⟩ "nope" "a.txt" (fun _ => none) =
      ⟨.returnedException 403 "Invalid upload id", ⟨[], []⟩, false⟩ :=
  ⟨rfl, complete_invalid_session_no_network ⟨[], []⟩ "nope" "a.txt" (fun _ => none) rfl⟩

/-- A one-chunk session used to exhibit the cleanup leak of `complete`. -/
def leakState : UploadState := ⟨[("s", [(chunkFileName 0, [104, 105])])], []⟩

/-- Completing `leakState` against a backend whose transfer raises. -/
def leakOutcome : CompleteOutcome :=
  complete_upload_handler leakState "s" "a.txt" (fun _ => some ⟨500, "backend down"⟩)

/-- C6 fails on the code: when the storage transfer raises, the handler
returns the 500 result and removes the staging directory, but the merged
artifact `{upload_id}_{filename}` is left in the upload root — cleanup of
the merged file happens only on the success path, so it is not
unconditional on every exit path as claimed. -/
theorem complete_failure_leaks_merged_artifact :
    leakOutcome.result = .returnedException 500 "Error uploading merged file to S3" ∧
    leakOutcome.state.sessions = [] ∧
    leakOutcome.state.rootFiles = [("s_a.txt", [104, 105])] := by
  refine ⟨rfl, rfl, ?_⟩
  decide

/-- C7 fails on the code: `upload_chunk_handler` on an unknown session id
*returns* the `HTTPExeption` object instead of raising it, so the HTTP
response carries success status 200 (the serialized object as its body) —
not a 403-class failure distinguishable from success. No chunk data is
written (the state is unchanged). -/
theorem chunk_invalid_session_returns_error_object :
    upload_chunk_handler ⟨[], []⟩ "nope" 0 [1] =
      (.returnedException 403 "Invalid upload id", ⟨[], []⟩) ∧
    (upload_chunk_handler ⟨[], []⟩ "nope" 0 [1]).1.httpStatus = 200 := by
  exact ⟨rfl, rfl⟩

/-- C10: once `complete` passes session validation, the staging directory is
removed before the storage transfer is attempted: for every transfer
outcome (success, backend rejection, or an I/O fault, all captured by the
quantified `transfer`), the final sessions are exactly the original ones
without the completed id, the session no longer resolves, and a repeated
`complete` or a further chunk upload for the same id yields the
invalid-session result. -/
theorem complete_removes_session_for_every_transfer_outcome
    (st : UploadState) (uid fname : String)
    (transfer : Bytes → Option S3ClientException) (d : Dir)
    (h : lookupSession st uid = some d) :
    (complete_upload_handler st uid fname transfer).state.sessions =
      st.sessions.filter (fun e => ¬e.1 = uid) ∧
    lookupSession (complete_upload_handler st uid fname transfer).state uid = none ∧
    (∀ (fname2 : String) (transfer2 : Bytes → Option S3ClientException),
      complete_upload_handler (complete_upload_handler st uid fname transfer).state
          uid fname2 transfer2 =
        ⟨.returnedException 403 "Invalid upload id",
         (complete_upload_handler st uid fname transfer).state, false⟩) ∧
    (∀ (i : Nat) (b : Bytes),
      upload_chunk_handler (complete_upload_handler st uid fname transfer).state uid i b =
        (.returnedException 403 "Invalid upload id",
         (complete_upload_handler st uid fname transfer).state)) := by
  have hsessions : (complete_upload_handler st uid fname transfer).state.sessions =
      st.sessions.filter (fun e => ¬e.1 = uid) := by
    simp only [complete_upload_handler, h]
    cases transfer (completeMerge d) <;> rfl
  have hnone : lookupSession (complete_upload_handler st uid fname transfer).state uid = none := by
    rw [lookupSession, hsessions]
    exact lookup_filter_ne _ uid
  refine ⟨hsessions, hnone, ?_, ?_⟩
  · intro fname2 transfer2
    generalize hS : (complete_upload_handler st uid fname transfer).state = S at hnone ⊢
    simp only [complete_upload_handler, hnone]
  · intro i b
    generalize hS : (complete_upload_handler st uid fname transfer).state = S at hnone ⊢
    simp only [upload_chunk_handler, hnone]

/-- Witness for C10: completing a one-chunk session against a succeeding
backend. -/
theorem complete_removes_session_for_every_transfer_outcome_witness :
    lookupSession ⟨[("s", [(chunkFileName 0, [104])])], []⟩ "s" =
      some [(chunkFileName 0, [104])] ∧
    ((complete_upload_handler ⟨[("s", [(chunkFileName 0, [104])])], []⟩ "s" "a.txt"
        (fun _ => none)).state.sessions =
      (⟨[("s", [(chunkFileName 0, [104])])], []⟩ : UploadState).sessions.filter
        (fun e => ¬e.1 = "s") ∧
    lookupSession (complete_upload_handler ⟨[("s", [(chunkFileName 0, [104])])], []⟩ "s" "a.txt"
        (fun _ => none)).state "s" = none ∧
    (∀ (fname2 : String) (transfer2 : Bytes → Option S3ClientException),
      complete_upload_handler (complete_upload_handler
          ⟨[("s", [(chunkFileName 0, [104])])], []⟩ "s" "a.txt" (fun _ => none)).state
          "s" fname2 transfer2 =
        ⟨.returnedException 403 "Invalid upload id",
         (complete_upload_handler ⟨[("s", [(chunkFileName 0, [104])])], []⟩ "s" "a.txt"
           (fun _ => none)).state, false⟩) ∧
    (∀ (i : Nat) (b : Bytes),
      upload_chunk_handler (complete_upload_handler
          ⟨[("s", [(chunkFileName 0, [104])])], []⟩ "s" "a.txt" (fun _ => none)).state "s" i b =
        (.returnedException 403 "Invalid upload id",
         (complete_upload_handler ⟨[("s", [(chunkFileName 0, [104])])], []⟩ "s" "a.txt"
           (fun _ => none)).state))) :=
  ⟨rfl, complete_removes_session_for_every_transfer_outcome
    ⟨[("s", [(chunkFileName 0, [104])])], []⟩ "s" "a.txt" (fun _ => none)
    [(chunkFileName 0, [104])] rfl⟩
